import Mathlib

/-!
Verification of the ViData export engine against its specification.

The definitions below are a shallow embedding of the TypeScript source:

* `src/utils/ffmpeg-utils.ts`   — filter-graph backend (`buildFilters`,
  `exportMainVideo`, `exportVideoWithDisclaimers`, `FFmpegManager.cleanup`);
* `src/utils/simple-export.ts`  — frame-capture backend (`drawWatermarksSync`,
  `drawSubtitles`, `getWatermarkPosition`, `preloadImages`);
* `src/components/VideoPlayer.tsx` — timeline segmenter (currentTime sync
  effect and `handleDisclaimerDisplay`);
* `SubtitleOverlay` / `WatermarkOverlay` components — display scale clamps.

Times, dimensions and scale factors are modelled as rationals; text as
`List Char`.
-/

namespace ViData

/-! ### Caption text escaping (`buildFilters`, ffmpeg-utils.ts lines 323-331)

The source applies seven sequential global replacements to the caption text,
backslash first:
`\ → \\`, then `' → \'`, `: → \:`, `[ → \[`, `] → \]`, `, → \,`, `; → \;`.
Each pass is a global replace of one character `r` by `\r`. -/

/-- One global-replace pass: every occurrence of `r` becomes `\` followed by
`r`; all other characters are kept. Mirrors one `.replace(/r/g, '\\r')`. -/
def escPass (r : Char) : List Char → List Char
  | [] => []
  | c :: cs => (if c = r then ['\\', c] else [c]) ++ escPass r cs

/-- The seven-pass escaping of `buildFilters`, innermost pass first:
backslash, quote, colon, brackets, comma, semicolon. -/
def escapeText (t : List Char) : List Char :=
  escPass ';' (escPass ',' (escPass ']' (escPass '[' (escPass ':'
    (escPass '\'' (escPass '\\' t))))))

/-- The set of characters the builder escapes. -/
def reservedChar (c : Char) : Bool :=
  c == '\\' || c == '\'' || c == ':' || c == '[' || c == ']' || c == ',' || c == ';'

/-- Single-pass characterization of the escaping: each reserved character is
prefixed with one backslash. -/
def escapeChar (c : Char) : List Char :=
  if reservedChar c then ['\\', c] else [c]

/-- The inverse transformation: a backslash consumes the following character
literally (removing exactly the escaping applied). -/
def unescapeText : List Char → List Char
  | [] => []
  | [c] => [c]
  | c :: d :: cs =>
      if c = '\\' then d :: unescapeText cs else c :: unescapeText (d :: cs)

theorem escPass_append (r : Char) (a b : List Char) :
    escPass r (a ++ b) = escPass r a ++ escPass r b := by
  induction a with
  | nil => rfl
  | cons c cs ih => simp [escPass, ih]

theorem escapeText_append (a b : List Char) :
    escapeText (a ++ b) = escapeText a ++ escapeText b := by
  simp [escapeText, escPass_append]

theorem escapeText_single (c : Char) : escapeText [c] = escapeChar c := by
  by_cases h1 : c = '\\'
  · subst h1; decide
  by_cases h2 : c = '\''
  · subst h2; decide
  by_cases h3 : c = ':'
  · subst h3; decide
  by_cases h4 : c = '['
  · subst h4; decide
  by_cases h5 : c = ']'
  · subst h5; decide
  by_cases h6 : c = ','
  · subst h6; decide
  by_cases h7 : c = ';'
  · subst h7; decide
  simp [escapeText, escPass, escapeChar, reservedChar, h1, h2, h3, h4, h5, h6, h7]

theorem unescape_cons_ne (c : Char) (h : ¬ c = '\\') (l : List Char) :
    unescapeText (c :: l) = c :: unescapeText l := by
  cases l with
  | nil => simp [unescapeText]
  | cons d cs => simp [unescapeText, h]

/-- **C1.** For every caption text (including any combination of backslash,
quote, colon, brackets, comma, semicolon), the filter-graph builder's
escaping — a backslash prefixed to each reserved character, backslashes
processed first — is reversible: `unescapeText (escapeText t) = t`. -/
theorem escape_roundtrip (t : List Char) :
    unescapeText (escapeText t) = t := by
  induction t with
  | nil => rfl
  | cons c cs ih =>
    have h : escapeText (c :: cs) = escapeChar c ++ escapeText cs := by
      have := escapeText_append [c] cs
      simpa [escapeText_single] using this
    rw [h]
    unfold escapeChar
    by_cases hr : reservedChar c = true
    · simp only [hr, if_pos]
      simp [unescapeText, ih]
    · simp only [hr, if_neg, Bool.not_eq_true]
      have hne : ¬ c = '\\' := by
        intro hc
        subst hc
        simp [reservedChar] at hr
      simp [unescape_cons_ne c hne, ih]

/-! ### Timeline segmenter (`VideoPlayer.tsx`)

The currentTime sync effect keeps the base clip when
`timeline.currentTime <= video.duration` and otherwise calls
`handleDisclaimerDisplay(currentTime - video.duration)`, which scans the
disclaimer slides in order accumulating prior durations and selects the
first slide whose half-open window contains the time after the video. -/

/-- A resolved timeline segment, as reflected by the `VideoPlayer` state:
`base t` — base clip synced to local time `t` (`showingDisclaimer = -1`,
video element seeked); `slide i off` — disclaimer slide `i` shown with
offset `off` past its start (`showingDisclaimer = i`,
`disclaimerStartTime = t - duration - off`); `complete` — the scan fell
through (`setShowingDisclaimer(-1)` after the loop). -/
inductive Segment where
  | base (localTime : ℚ)
  | slide (index : ℕ) (localTime : ℚ)
  | complete
deriving DecidableEq

/-- The loop of `handleDisclaimerDisplay` (VideoPlayer.tsx lines 156-169):
`acc` is `accumulatedTime`; a slide is selected when
`acc ≤ timeAfterVideo < acc + duration`; otherwise the accumulated time
advances; falling off the end yields `none`. The returned offset is the
time after the video minus the selected slide's accumulated start. -/
def findSlide : List ℚ → ℚ → ℚ → Option (ℕ × ℚ)
  | [], _, _ => none
  | d :: rest, tAfter, acc =>
      if acc ≤ tAfter ∧ tAfter < acc + d then some (0, tAfter - acc)
      else (findSlide rest tAfter (acc + d)).map (fun p => (p.1 + 1, p.2))

/-- The segmenter: the sync effect's branch
`if (timeline.currentTime <= video.duration)` keeps the base clip,
otherwise `handleDisclaimerDisplay` resolves a slide. -/
def segmentAt (videoDuration : ℚ) (slides : List ℚ) (t : ℚ) : Segment :=
  if t ≤ videoDuration then Segment.base t
  else
    match findSlide slides (t - videoDuration) 0 with
    | some (i, off) => Segment.slide i off
    | none => Segment.complete

theorem findSlide_spec (slides : List ℚ) (tAfter : ℚ) :
    ∀ acc : ℚ, acc ≤ tAfter → tAfter < acc + slides.sum →
    ∃ i off, findSlide slides tAfter acc = some (i, off) ∧
      i < slides.length ∧ 0 ≤ off ∧ off < slides.getD i 0 ∧
      tAfter = acc + (slides.take i).sum + off := by
  induction slides with
  | nil =>
    intro acc h0 h1
    simp only [List.sum_nil, add_zero] at h1
    exact absurd h1 (not_lt.mpr h0)
  | cons d rest ih =>
    intro acc h0 h1
    by_cases hcase : tAfter < acc + d
    · refine ⟨0, tAfter - acc, ?_, ?_, ?_, ?_, ?_⟩
      · simp [findSlide, h0, hcase]
      · simp
      · linarith
      · simp only [List.getD_cons_zero]
        linarith
      · simp
    · have h0' : acc + d ≤ tAfter := not_lt.mp hcase
      have h1' : tAfter < (acc + d) + rest.sum := by
        simp only [List.sum_cons] at h1
        linarith
      obtain ⟨i, off, heq, hlen, hoff0, hoffd, hsum⟩ := ih (acc + d) h0' h1'
      refine ⟨i + 1, off, ?_, ?_, hoff0, ?_, ?_⟩
      · simp [findSlide, hcase, heq]
      · simpa using hlen
      · simpa using hoffd
      · simp only [List.take_succ_cons, List.sum_cons]
        linarith

/-- **C2 counterexample.** At global time exactly `source.durationSeconds`
(here 10, with one slide of duration 3, so 10 ∈ [0, 13)), the sync effect's
`<=` comparison keeps the *base* segment with localOffset 10: the boundary
instant does not belong to the first slide, `t < durationSeconds` fails, and
`localOffset < segmentDuration` fails (10 ≮ 10). -/
theorem segment_boundary_counterexample :
    segmentAt 10 [3] 10 = Segment.base 10 ∧ ¬ ((10 : ℚ) < 10) := by
  refine ⟨by norm_num [segmentAt], by norm_num⟩

/-- **C2 amended.** For every global time `t ∈ [0, totalDuration)` the
segmenter returns exactly one segment: the base segment exactly when
`t ≤ source.durationSeconds` (the code compares with `<=`, so the instant
at the base/slide boundary stays on the base clip, where the local offset
equals the base duration rather than being strictly below it); for
`t > durationSeconds` it returns the unique slide whose half-open window
`[start, start+duration)` contains `t`, with `0 ≤ localOffset <
slideDuration` — internal slide boundaries belong to the next slide, and
the final instant of the timeline belongs to the last slide. -/
theorem segmentAt_total (dur : ℚ) (slides : List ℚ) (t : ℚ)
    (_ht0 : 0 ≤ t) (ht : t < dur + slides.sum) :
    (t ≤ dur ∧ segmentAt dur slides t = Segment.base t) ∨
    (dur < t ∧ ∃ i off, i < slides.length ∧ 0 ≤ off ∧ off < slides.getD i 0 ∧
      t = dur + (slides.take i).sum + off ∧
      segmentAt dur slides t = Segment.slide i off) := by
  by_cases htd : t ≤ dur
  · exact Or.inl ⟨htd, by simp [segmentAt, htd]⟩
  · have hlt : dur < t := not_le.mp htd
    have h0 : (0 : ℚ) ≤ t - dur := by linarith
    have h1 : t - dur < 0 + slides.sum := by linarith
    obtain ⟨i, off, heq, hlen, hoff0, hoffd, hsum⟩ :=
      findSlide_spec slides (t - dur) 0 h0 h1
    refine Or.inr ⟨hlt, i, off, hlen, hoff0, hoffd, by linarith, ?_⟩
    simp [segmentAt, htd, heq]

/-- Witness for `segmentAt_total` at `dur = 10`, `slides = [3, 4]`,
`t = 14`. -/
theorem segmentAt_total_witness :
    ((14 : ℚ) ≤ 10 ∧ segmentAt 10 [3, 4] 14 = Segment.base 14) ∨
    ((10 : ℚ) < 14 ∧ ∃ i off, i < ([3, 4] : List ℚ).length ∧ 0 ≤ off ∧
      off < ([3, 4] : List ℚ).getD i 0 ∧
      (14 : ℚ) = 10 + (([3, 4] : List ℚ).take i).sum + off ∧
      segmentAt 10 [3, 4] 14 = Segment.slide i off) :=
  segmentAt_total 10 [3, 4] 14 (by norm_num) (by norm_num)

/-- **C3 counterexample.** With a 10 s source and trailer slides of 3 s and
4 s, global time 12.5 resolves to slide index 0 with localOffset
`12.5 − 10 = 2.5`, not `0.5` as the claim states. -/
theorem scenarioB_counterexample :
    segmentAt 10 [3, 4] (25 / 2) = Segment.slide 0 (5 / 2) ∧
    Segment.slide 0 (5 / 2) ≠ Segment.slide 0 (1 / 2) := by
  constructor
  · norm_num [segmentAt, findSlide]
  · intro h
    have h2 := (Segment.slide.inj h).2
    norm_num at h2

/-- **C3 amended.** With a 10 s source and slides of 3 s and 4 s
(totalDuration 17 s), global time 12.5 resolves to slide 0 with
localOffset 2.5, and global time 14.0 resolves to slide 1 with
localOffset 1.0. -/
theorem scenarioB_amended :
    segmentAt 10 [3, 4] (25 / 2) = Segment.slide 0 (5 / 2) ∧
    segmentAt 10 [3, 4] 14 = Segment.slide 1 1 := by
  refine ⟨by norm_num [segmentAt, findSlide], by norm_num [segmentAt, findSlide]⟩

/-! ### Caption activity intervals (C4)

Filter-graph backend: `buildFilters` guards each drawtext with
`enable='between(t,startTime,startTime+duration)'` (ffmpeg-utils.ts line
370).  The target engine's `between(x, lo, hi)` expression is documented as
1 iff `lo ≤ x` and `x ≤ hi` — inclusive at both endpoints.

Frame-capture backend: `drawSubtitles` (simple-export.ts line 442) draws a
caption when `currentTime >= startTime && currentTime <= startTime +
duration`. -/

/-- Semantics of the ffmpeg expression `between(x, lo, hi)` appearing in the
emitted enable predicate: true iff `lo ≤ x ≤ hi`, both ends inclusive. -/
def betweenExpr (x lo hi : ℚ) : Prop := lo ≤ x ∧ x ≤ hi

/-- The enable predicate `buildFilters` attaches to a caption's drawtext
operation: `between(t, startTime, startTime + duration)`. -/
def subtitleEnabledFG (startTime duration t : ℚ) : Prop :=
  betweenExpr t startTime (startTime + duration)

/-- The activity test of `drawSubtitles` in the frame-capture backend:
`startTime ≤ t ∧ t ≤ startTime + duration`. -/
def subtitleActiveFC (startTime duration t : ℚ) : Prop :=
  startTime ≤ t ∧ t ≤ startTime + duration

/-- **C4 counterexample.** A caption starting at 2 with duration 3 *is*
rendered at the exact instant `t = start + duration = 5` in both backends
(the frame-capture comparison is `<=` and the emitted `between` predicate is
inclusive), contradicting the claimed half-open interval. -/
theorem caption_interval_counterexample :
    subtitleActiveFC 2 3 5 ∧ subtitleEnabledFG 2 3 5 ∧ ¬ ((5 : ℚ) < 2 + 3) := by
  refine ⟨⟨by norm_num, by norm_num⟩, ⟨by norm_num, by norm_num⟩, by norm_num⟩

/-- **C4 amended.** Each caption is active exactly on the *closed* interval
`start ≤ t ≤ start + duration` in both backends, which agree with each
other; in particular a caption with nonnegative duration is rendered at the
exact instant `t = start + duration`. -/
theorem caption_interval_amended (s d t : ℚ) :
    (subtitleEnabledFG s d t ↔ s ≤ t ∧ t ≤ s + d) ∧
    (subtitleActiveFC s d t ↔ s ≤ t ∧ t ≤ s + d) ∧
    (0 ≤ d → (subtitleActiveFC s d (s + d) ∧ subtitleEnabledFG s d (s + d))) := by
  refine ⟨Iff.rfl, Iff.rfl, fun hd => ⟨⟨by linarith, le_refl _⟩, ⟨by linarith, le_refl _⟩⟩⟩

/-- Witness for `caption_interval_amended` at `s = 2`, `d = 3`, `t = 4`. -/
theorem caption_interval_amended_witness :
    subtitleActiveFC 2 3 (2 + 3) ∧ subtitleEnabledFG 2 3 (2 + 3) :=
  (caption_interval_amended 2 3 4).2.2 (by norm_num)

/-! ### Progress events (C5)

`FFmpegManager.initialize` emits loading events and registers a handler on
the engine's progress hook that emits `{phase: 'processing', progress:
round(progress*100)}` on every engine report; `exportVideo` then emits
processing 0 and 10, and `exportMainVideo` emits rendering 20, runs
`ffmpeg.exec` (during which the engine reports progress through the
handler), then emits finalizing 95 and 100.  The trace below records, in
emission order, every call of the `onProgress` callback on the
no-disclaimer path, parameterized by the percents the engine reports during
`exec`. -/

/-- Progress phases of `ExportProgress`, in the spec's claimed order. -/
inductive Phase where
  | loading
  | processing
  | rendering
  | finalizing
deriving DecidableEq

/-- Position of a phase in the order loading → processing → rendering →
finalizing. -/
def Phase.idx : Phase → ℕ
  | .loading => 0
  | .processing => 1
  | .rendering => 2
  | .finalizing => 3

/-- One emitted progress event: whether it came from the engine-progress
handler registered in `initialize`, its phase, and its percent. -/
structure ProgressEvent where
  fromHandler : Bool
  phase : Phase
  percent : ℕ
deriving DecidableEq

/-- Events emitted by the engine-progress handler: one `processing` event
per engine report. -/
def handlerEvents (ps : List ℕ) : List ProgressEvent :=
  ps.map (fun p => ⟨true, Phase.processing, p⟩)

/-- Direct emissions of `FFmpegManager.initialize` on its success path:
loading 10, loading 30, loading 100. -/
def initializeEvents : List ProgressEvent :=
  [⟨false, Phase.loading, 10⟩, ⟨false, Phase.loading, 30⟩, ⟨false, Phase.loading, 100⟩]

/-- Emissions of `exportMainVideo`: rendering 20, then the engine's reports
during `ffmpeg.exec` (via the handler), then finalizing 95 and 100. -/
def exportMainVideoEvents (ps : List ℕ) : List ProgressEvent :=
  [⟨false, Phase.rendering, 20⟩] ++ handlerEvents ps ++
    [⟨false, Phase.finalizing, 95⟩, ⟨false, Phase.finalizing, 100⟩]

/-- Full event trace of `exportVideo` on the no-disclaimer path, first
export (manager not yet loaded): initialize, processing 0, processing 10,
then `exportMainVideo`. -/
def exportVideoEvents (ps : List ℕ) : List ProgressEvent :=
  initializeEvents ++ [⟨false, Phase.processing, 0⟩, ⟨false, Phase.processing, 10⟩] ++
    exportMainVideoEvents ps

/-- Checks that each adjacent pair of events is in nondecreasing phase
order. -/
def phaseMonotoneB : List ProgressEvent → Bool
  | [] => true
  | [_] => true
  | a :: b :: rest => decide (a.phase.idx ≤ b.phase.idx) && phaseMonotoneB (b :: rest)

/-- Phases never regress along a trace. -/
def PhaseMonotone (evs : List ProgressEvent) : Prop :=
  phaseMonotoneB evs = true

instance (evs : List ProgressEvent) : Decidable (PhaseMonotone evs) :=
  inferInstanceAs (Decidable (phaseMonotoneB evs = true))

/-- **C5 counterexample.** If the engine reports progress once during
`ffmpeg.exec` (here 50 %), the handler emits a `processing` event *after*
the orchestrator has already emitted `rendering 20`: the phase sequence of
that export regresses. -/
theorem phase_regression_counterexample :
    ¬ PhaseMonotone (exportVideoEvents [50]) := by
  decide

theorem handlerEvents_filter_direct (ps : List ℕ) :
    (handlerEvents ps).filter (fun e => !e.fromHandler) = [] := by
  induction ps with
  | nil => rfl
  | cons p ps _ => simp [handlerEvents, List.filter_cons]

theorem handlerEvents_phase (ps : List ℕ) :
    ∀ e ∈ handlerEvents ps, e.phase = Phase.processing := by
  intro e he
  simp only [handlerEvents, List.mem_map] at he
  obtain ⟨p, _, rfl⟩ := he
  rfl

/-- **C5 amended.** Within one export, the events emitted directly by the
export functions (everything except the engine-progress handler's events)
are monotone in the order loading → processing → rendering → finalizing;
the handler's events always carry phase `processing` and may be interleaved
after `rendering` events while `ffmpeg.exec` runs, so the full trace is
monotone only when the engine reports nothing. -/
theorem phase_monotone_amended (ps : List ℕ) :
    PhaseMonotone ((exportVideoEvents ps).filter (fun e => !e.fromHandler)) ∧
    (∀ e ∈ exportVideoEvents ps, e.fromHandler = true → e.phase = Phase.processing) ∧
    PhaseMonotone (exportVideoEvents []) := by
  refine ⟨?_, ?_, by decide⟩
  · have h := handlerEvents_filter_direct ps
    simp only [exportVideoEvents, exportMainVideoEvents, initializeEvents,
      List.filter_append, h]
    decide
  · intro e he hf
    have hsplit : e ∈ ([⟨false, Phase.loading, 10⟩, ⟨false, Phase.loading, 30⟩,
        ⟨false, Phase.loading, 100⟩, ⟨false, Phase.processing, 0⟩,
        ⟨false, Phase.processing, 10⟩, ⟨false, Phase.rendering, 20⟩,
        ⟨false, Phase.finalizing, 95⟩, ⟨false, Phase.finalizing, 100⟩] :
          List ProgressEvent) ∨ e ∈ handlerEvents ps := by
      simp only [exportVideoEvents, exportMainVideoEvents, initializeEvents,
        List.mem_append, List.mem_cons, List.not_mem_nil, or_false] at he ⊢
      tauto
    rcases hsplit with h | h
    · fin_cases h <;> simp at hf
    · exact handlerEvents_phase ps e h

/-- Witness for `phase_monotone_amended` with one engine report of 50 %. -/
theorem phase_monotone_amended_witness :
    PhaseMonotone ((exportVideoEvents [50]).filter (fun e => !e.fromHandler)) :=
  (phase_monotone_amended [50]).1

/-! ### Watermark geometry and the frame-capture render loop

Shared data model for `getWatermarkPosition` and `drawWatermarksSync`
(simple-export.ts) and the watermark/subtitle positioning of `buildFilters`
(ffmpeg-utils.ts). -/

/-- Watermark position values (`WatermarkPosition | 'custom'`). -/
inductive WMPos where
  | topLeft
  | topRight
  | bottomLeft
  | bottomRight
  | center
  | custom
deriving DecidableEq

/-- The fields of a `Watermark` the export engine reads. -/
structure Watermark where
  url : String
  startTime : ℚ
  endTime : ℚ
  scale : ℚ
  position : WMPos
  customX : Option ℚ
  customY : Option ℚ
deriving DecidableEq

/-- A successfully decoded image (`img.complete` with its natural size);
a failed load is represented by `Option.none` in the image store. -/
structure Img where
  naturalWidth : ℚ
  naturalHeight : ℚ
deriving DecidableEq

/-- An absolute pixel rectangle `{x, y, width, height}`. -/
structure Rect where
  x : ℚ
  y : ℚ
  width : ℚ
  height : ℚ
deriving DecidableEq

/-- The shrink-to-fit factor of `getWatermarkPosition`: when the scaled
size exceeds either limit, both sides are multiplied by
`min(maxWidth/scaledWidth, maxHeight/scaledHeight)`; otherwise unchanged. -/
def fitFactor (sw sh mw mh : ℚ) : ℚ :=
  if mw < sw ∨ mh < sh then min (mw / sw) (mh / sh) else 1

/-- `getWatermarkPosition` (simple-export.ts lines 507-570): the display
scale factor is `min(cw/800, ch/600)`; the watermark is first scaled by its
own `scale`, then shrunk uniformly if it exceeds
`max(200·sf, 120) × max(120·sf, 80)`; custom percent coordinates (taken
whenever both are present, `!== undefined`) center the rectangle at
`(cw·cx/100, ch·cy/100)`, otherwise the named position places it a margin
`max(16·sf, 16)` from the edges (default: top-right). -/
def getWatermarkPosition (w : Watermark)
    (canvasWidth canvasHeight imgWidth imgHeight : ℚ) : Rect :=
  let scaleFactor := min (canvasWidth / 800) (canvasHeight / 600)
  let maxWidth := max (200 * scaleFactor) 120
  let maxHeight := max (120 * scaleFactor) 80
  let sw0 := imgWidth * w.scale
  let sh0 := imgHeight * w.scale
  let fit := fitFactor sw0 sh0 maxWidth maxHeight
  let scaledWidth := sw0 * fit
  let scaledHeight := sh0 * fit
  let margin := max (16 * scaleFactor) 16
  let xy : ℚ × ℚ :=
    if w.position = WMPos.custom ∧ w.customX ≠ none ∧ w.customY ≠ none then
      (canvasWidth * (w.customX.getD 0 / 100) - scaledWidth / 2,
       canvasHeight * (w.customY.getD 0 / 100) - scaledHeight / 2)
    else
      match w.position with
      | WMPos.topLeft => (margin, margin)
      | WMPos.topRight => (canvasWidth - scaledWidth - margin, margin)
      | WMPos.bottomLeft => (margin, canvasHeight - scaledHeight - margin)
      | WMPos.bottomRight =>
          (canvasWidth - scaledWidth - margin, canvasHeight - scaledHeight - margin)
      | WMPos.center =>
          ((canvasWidth - scaledWidth) / 2, (canvasHeight - scaledHeight) / 2)
      | WMPos.custom => (canvasWidth - scaledWidth - margin, margin)
  ⟨xy.1, xy.2, scaledWidth, scaledHeight⟩

/-- One `ctx.drawImage(img, x, y, width, height)` call issued for a
watermark (at compositing alpha 0.9). -/
structure DrawCmd where
  url : String
  rect : Rect
deriving DecidableEq

/-- `drawWatermarksSync` (simple-export.ts lines 320-348): for each
watermark whose `[startTime, endTime]` window contains the current time,
draw it at `getWatermarkPosition` — but only if its image is loaded
(`img.complete && img.naturalWidth > 0`); otherwise it is skipped. The
image store maps a url to its decoded image, `none` for a failed load. -/
def drawWatermarksSync (loaded : String → Option Img) (ws : List Watermark)
    (t canvasWidth canvasHeight : ℚ) : List DrawCmd :=
  ws.filterMap (fun w =>
    if w.startTime ≤ t ∧ t ≤ w.endTime then
      match loaded w.url with
      | some img =>
          if 0 < img.naturalWidth then
            some ⟨w.url, getWatermarkPosition w canvasWidth canvasHeight
              img.naturalWidth img.naturalHeight⟩
          else none
      | none => none
    else none)

/-- One image promise of `preloadImages`: both `onload` and `onerror` call
`resolve()`, so it settles successfully whatever the load outcome. -/
def preloadOne (loadedOk : Bool) : Bool :=
  match loadedOk with
  | true => true
  | false => true

/-- `preloadImages` awaits all per-image promises; it succeeds for every
combination of load outcomes. -/
def preloadImages (outcomes : List Bool) : Bool :=
  (outcomes.map preloadOne).all (fun b => b)

/-- The frame-capture render loop (`renderVideo`): one frame per sample
time, each carrying the watermark draw commands for that time. -/
def renderFrames (loaded : String → Option Img) (ws : List Watermark)
    (times : List ℚ) (canvasWidth canvasHeight : ℚ) : List (List DrawCmd) :=
  times.map (fun t => drawWatermarksSync loaded ws t canvasWidth canvasHeight)

/-- The image store after the asset at url `u` fails to load. -/
def failAt (loaded : String → Option Img) (u : String) : String → Option Img :=
  fun s => if s = u then none else loaded s

theorem filterMap_filter_of_none {α β : Type} (f g : α → Option β)
    (p : α → Bool) (l : List α) (h1 : ∀ a, p a = false → f a = none)
    (h2 : ∀ a, p a = true → f a = g a) :
    l.filterMap f = (l.filter p).filterMap g := by
  induction l with
  | nil => rfl
  | cons a l ih =>
    cases hp : p a
    · rw [List.filterMap_cons, h1 a hp, List.filter_cons, hp]
      simpa using ih
    · rw [List.filterMap_cons, h2 a hp, List.filter_cons, hp]
      cases hga : g a <;> simp [List.filterMap_cons, hga, ih]

/-- **C6.** In the frame-capture backend a single overlay image failing to
load is non-fatal: the preload step succeeds for every outcome, the render
loop still produces its full frame sequence (the export completes and
returns an artifact), and on every frame the failed watermark is skipped
while all watermarks with other urls render exactly as they would have —
`drawWatermarksSync` under the failed store equals `drawWatermarksSync`
over the other watermarks alone. -/
theorem watermark_load_failure_nonfatal (loaded : String → Option Img)
    (u : String) (ws : List Watermark) (times : List ℚ)
    (outcomes : List Bool) (canvasWidth canvasHeight : ℚ) :
    preloadImages outcomes = true ∧
    (renderFrames (failAt loaded u) ws times canvasWidth canvasHeight).length
      = times.length ∧
    (∀ t, drawWatermarksSync (failAt loaded u) ws t canvasWidth canvasHeight =
      drawWatermarksSync loaded (ws.filter (fun w => w.url ≠ u)) t
        canvasWidth canvasHeight) := by
  refine ⟨?_, by simp [renderFrames], ?_⟩
  · induction outcomes with
    | nil => rfl
    | cons b bs _ => cases b <;> simp [preloadImages, preloadOne]
  · intro t
    unfold drawWatermarksSync
    apply filterMap_filter_of_none
    · intro a ha
      have hau : a.url = u := by
        by_contra hne
        simp [hne] at ha
      simp [failAt, hau, ite_self]
    · intro a ha
      have hau : ¬ a.url = u := by
        intro he
        simp [he] at ha
      simp [failAt, hau]

/-! ### Filter-graph overlay positioning (C8)

`buildFilters` selects the custom codepath with the JavaScript truthiness
test `pos === 'custom' && customX && customY`: an absent (`undefined`) or
*zero* coordinate is falsy and falls through to the named-position switch.
The frame-capture `getWatermarkPosition` instead tests
`customX !== undefined && customY !== undefined`. -/

/-- JavaScript truthiness of an optional numeric field: `undefined` and `0`
are falsy. -/
def truthy (v : Option ℚ) : Bool :=
  match v with
  | none => false
  | some x => decide (¬ x = 0)

/-- Watermark overlay coordinates emitted by `buildFilters` (ffmpeg-utils.ts
lines 381-406), as functions of main dimensions `W, H` and watermark
dimensions `w, h`; the custom branch requires truthy coordinates, and a
custom position with a falsy coordinate keeps the initial top-right
values. -/
def wmPosFG (pos : WMPos) (customX customY : Option ℚ) (W H w h : ℚ) : ℚ × ℚ :=
  if pos = WMPos.custom ∧ truthy customX ∧ truthy customY then
    (W * (customX.getD 0 / 100) - w / 2, H * (customY.getD 0 / 100) - h / 2)
  else
    match pos with
    | WMPos.topLeft => (10, 10)
    | WMPos.topRight => (W - w - 10, 10)
    | WMPos.bottomLeft => (10, H - h - 10)
    | WMPos.bottomRight => (W - w - 10, H - h - 10)
    | WMPos.center => ((W - w) / 2, (H - h) / 2)
    | WMPos.custom => (W - w - 10, 10)

/-- Subtitle position values (`'top-left' | ... | 'center' | 'custom'`). -/
inductive SubPos where
  | topLeft
  | topCenter
  | topRight
  | center
  | bottomLeft
  | bottomCenter
  | bottomRight
  | custom
deriving DecidableEq

/-- `pos.includes('top')`. -/
def SubPos.hasTop : SubPos → Bool
  | .topLeft | .topCenter | .topRight => true
  | _ => false

/-- `pos.includes('bottom')`. -/
def SubPos.hasBottom : SubPos → Bool
  | .bottomLeft | .bottomCenter | .bottomRight => true
  | _ => false

/-- `pos.includes('left')`. -/
def SubPos.hasLeft : SubPos → Bool
  | .topLeft | .bottomLeft => true
  | _ => false

/-- `pos.includes('right')`. -/
def SubPos.hasRight : SubPos → Bool
  | .topRight | .bottomRight => true
  | _ => false

/-- Subtitle anchor coordinates of `buildFilters` (ffmpeg-utils.ts lines
336-350) before the drawtext centering: custom (truthy) coordinates give
`(w·cx/100, h·cy/100)`; otherwise the named substring tests run, with
initial values `(w/2, h-50)`. -/
def subBaseFG (pos : SubPos) (customX customY : Option ℚ) (W H : ℚ) : ℚ × ℚ :=
  if pos = SubPos.custom ∧ truthy customX ∧ truthy customY then
    (W * (customX.getD 0 / 100), H * (customY.getD 0 / 100))
  else
    ((if pos.hasLeft then 50 else if pos.hasRight then W - 50 else W / 2),
     (if pos.hasTop then 50
      else if pos.hasBottom then H - 50
      else if pos = SubPos.center then H / 2 else H - 50))

/-- The final drawtext position: `x=${x}-text_w/2:y=${y}-text_h/2`, i.e. the
text box centered on the anchor. -/
def subPosFG (pos : SubPos) (customX customY : Option ℚ)
    (W H textW textH : ℚ) : ℚ × ℚ :=
  ((subBaseFG pos customX customY W H).1 - textW / 2,
   (subBaseFG pos customX customY W H).2 - textH / 2)

/-- **C8 counterexample.** A filter-graph watermark at `position = custom`
with `customX = 0`, `customY = 50` takes the *named* codepath: `0` is falsy
in `watermark.customX && watermark.customY`, so with main 800×600 and
watermark 100×50 the emitted position is the top-right default `(690, 10)`,
not the claimed centered custom point `(-50, 275)`. -/
theorem custom_position_counterexample :
    wmPosFG WMPos.custom (some 0) (some 50) 800 600 100 50 = (690, 10) ∧
    ((690 : ℚ), (10 : ℚ)) ≠
      ((800 : ℚ) * (0 / 100) - 100 / 2, (600 : ℚ) * (50 / 100) - 50 / 2) := by
  constructor
  · norm_num [wmPosFG, truthy]
  · intro h
    rw [Prod.mk.injEq] at h
    have h1 := h.1
    norm_num at h1

/-- **C8 amended.** Custom coordinates take precedence *when truthy* in the
filter-graph builder: for `position = custom` with both coordinates present
and nonzero, the watermark overlay is centered at
`(W·cx/100, H·cy/100)` and the caption anchor is `(W·cx/100, H·cy/100)`
(then text-centered), never the named codepath.  In the frame-capture
`getWatermarkPosition`, mere presence suffices (zero included): the
rectangle is centered at `(cw·cx/100, ch·cy/100)`. -/
theorem custom_position_amended (cx cy : ℚ) (hx : cx ≠ 0) (hy : cy ≠ 0)
    (W H w h textW textH : ℚ) (u : String) (st et sc : ℚ) (cx' cy' : ℚ)
    (cw ch iw ih : ℚ) :
    wmPosFG WMPos.custom (some cx) (some cy) W H w h =
      (W * (cx / 100) - w / 2, H * (cy / 100) - h / 2) ∧
    subPosFG SubPos.custom (some cx) (some cy) W H textW textH =
      (W * (cx / 100) - textW / 2, H * (cy / 100) - textH / 2) ∧
    ((getWatermarkPosition ⟨u, st, et, sc, WMPos.custom, some cx', some cy'⟩
        cw ch iw ih).x =
      cw * (cx' / 100) -
        (getWatermarkPosition ⟨u, st, et, sc, WMPos.custom, some cx', some cy'⟩
          cw ch iw ih).width / 2 ∧
     (getWatermarkPosition ⟨u, st, et, sc, WMPos.custom, some cx', some cy'⟩
        cw ch iw ih).y =
      ch * (cy' / 100) -
        (getWatermarkPosition ⟨u, st, et, sc, WMPos.custom, some cx', some cy'⟩
          cw ch iw ih).height / 2) := by
  refine ⟨?_, ?_, ?_⟩
  · simp [wmPosFG, truthy, hx, hy]
  · simp [subPosFG, subBaseFG, truthy, hx, hy]
  · constructor <;> simp [getWatermarkPosition]

/-- Witness for `custom_position_amended` at `cx = cy = 50`, main 800×600,
watermark 100×50, text 200×40, frame-capture coordinates `cx' = 0`,
`cy' = 25` on an 800×600 canvas with a 400×200 image. -/
theorem custom_position_amended_witness :
    wmPosFG WMPos.custom (some 50) (some 50) 800 600 100 50 =
      ((800 : ℚ) * (50 / 100) - 100 / 2, (600 : ℚ) * (50 / 100) - 50 / 2) ∧
    subPosFG SubPos.custom (some 50) (some 50) 800 600 200 40 =
      ((800 : ℚ) * (50 / 100) - 200 / 2, (600 : ℚ) * (50 / 100) - 40 / 2) ∧
    ((getWatermarkPosition ⟨"wm", 0, 10, 1, WMPos.custom, some 0, some 25⟩
        800 600 400 200).x =
      (800 : ℚ) * (0 / 100) -
        (getWatermarkPosition ⟨"wm", 0, 10, 1, WMPos.custom, some 0, some 25⟩
          800 600 400 200).width / 2 ∧
     (getWatermarkPosition ⟨"wm", 0, 10, 1, WMPos.custom, some 0, some 25⟩
        800 600 400 200).y =
      (600 : ℚ) * (25 / 100) -
        (getWatermarkPosition ⟨"wm", 0, 10, 1, WMPos.custom, some 0, some 25⟩
          800 600 400 200).height / 2) :=
  custom_position_amended 50 50 (by norm_num) (by norm_num)
    800 600 100 50 200 40 "wm" 0 10 1 0 25 800 600 400 200

/-! ### Display-scale clamps (C7)

`SubtitleOverlay.getBackgroundStyles` clamps the display scale factor with
`Math.max(0.7, Math.min(1.3, scaleFactor))` before scaling paddings; the
same component's font-size path uses
`Math.max(0.75, Math.min(1.25, scaleFactor))`; `WatermarkOverlay`'s
`getPositionStyles` uses `Math.max(0.8, Math.min(1.2, scaleFactor))` for
its margins. -/

/-- The conservative scale of `getBackgroundStyles` (caption
paddings / margins): clamp to `[0.7, 1.3]`. -/
def captionBackgroundScale (s : ℚ) : ℚ := max (7 / 10) (min (13 / 10) s)

/-- The conservative scale of the caption font-size path: clamp to
`[0.75, 1.25]`. -/
def captionFontScale (s : ℚ) : ℚ := max (3 / 4) (min (5 / 4) s)

/-- `Math.max(12, Math.round(style.fontSize * conservativeScale))`. -/
def scaledFontSize (fontSize s : ℚ) : ℤ :=
  max 12 (round (fontSize * captionFontScale s))

/-- The conservative scale of `WatermarkOverlay.getPositionStyles`
(watermark margins): clamp to `[0.8, 1.2]`. -/
def watermarkMarginScale (s : ℚ) : ℚ := max (4 / 5) (min (6 / 5) s)

/-- `Math.max(12, Math.round(20 * conservativeScale))` (watermark margin). -/
def watermarkPadding (s : ℚ) : ℤ :=
  max 12 (round (20 * watermarkMarginScale s))

/-- **C7 counterexample.** At display scale factor 1.3 a caption of
font size 100 is scaled through the font path's `[0.75, 1.25]` clamp to
`round(100 · 1.25) = 125`, while the claimed caption clamp
`min(1.3, max(0.7, s))` would give `round(100 · 1.3) = 130`: the caption
font-size path does not clamp to `[0.7, 1.3]`. -/
theorem scale_clamp_counterexample :
    scaledFontSize 100 (13 / 10) = 125 ∧
    max 12 (round ((100 : ℚ) * min (13 / 10) (max (7 / 10) (13 / 10)))) = 130 ∧
    (125 : ℤ) ≠ 130 := by
  refine ⟨?_, ?_, by norm_num⟩
  · norm_num [scaledFontSize, captionFontScale, round_eq]
  · norm_num [round_eq]

/-- **C7 amended.** Before the display scale factor is applied, it is
clamped per path: to `[0.7, 1.3]` for caption background paddings, to
`[0.75, 1.25]` for the caption font size, and to `[0.8, 1.2]` for
watermark margins — each clamp stays within its bounds and is the identity
inside them. -/
theorem scale_clamp_amended (s : ℚ) :
    (7 / 10 ≤ captionBackgroundScale s ∧ captionBackgroundScale s ≤ 13 / 10 ∧
      (7 / 10 ≤ s → s ≤ 13 / 10 → captionBackgroundScale s = s)) ∧
    (3 / 4 ≤ captionFontScale s ∧ captionFontScale s ≤ 5 / 4 ∧
      (3 / 4 ≤ s → s ≤ 5 / 4 → captionFontScale s = s)) ∧
    (4 / 5 ≤ watermarkMarginScale s ∧ watermarkMarginScale s ≤ 6 / 5 ∧
      (4 / 5 ≤ s → s ≤ 6 / 5 → watermarkMarginScale s = s)) := by
  unfold captionBackgroundScale captionFontScale watermarkMarginScale
  refine ⟨⟨le_max_left _ _, max_le (by norm_num) (min_le_left _ _), ?_⟩,
    ⟨le_max_left _ _, max_le (by norm_num) (min_le_left _ _), ?_⟩,
    ⟨le_max_left _ _, max_le (by norm_num) (min_le_left _ _), ?_⟩⟩ <;>
    intro h1 h2 <;> rw [min_eq_right h2, max_eq_right h1]

/-- Witness for `scale_clamp_amended` at `s = 1`: every clamp is the
identity there. -/
theorem scale_clamp_amended_witness :
    captionBackgroundScale 1 = 1 ∧ captionFontScale 1 = 1 ∧
      watermarkMarginScale 1 = 1 := by
  obtain ⟨⟨_, _, h1⟩, ⟨_, _, h2⟩, ⟨_, _, h3⟩⟩ := scale_clamp_amended 1
  exact ⟨h1 (by norm_num) (by norm_num), h2 (by norm_num) (by norm_num),
    h3 (by norm_num) (by norm_num)⟩

/-! ### Watermark size invariant (C10) -/

theorem fitFactor_pos (sw sh mw mh : ℚ) (hsw : 0 < sw) (hsh : 0 < sh)
    (hmw : 0 < mw) (hmh : 0 < mh) : 0 < fitFactor sw sh mw mh := by
  unfold fitFactor
  split
  · exact lt_min (div_pos hmw hsw) (div_pos hmh hsh)
  · norm_num

theorem fitFactor_width_le (sw sh mw mh : ℚ) (hsw : 0 < sw)
    (hno : ¬ (mw < sw ∨ mh < sh) → sw ≤ mw) :
    sw * fitFactor sw sh mw mh ≤ mw := by
  unfold fitFactor
  split
  case isTrue h =>
    calc sw * min (mw / sw) (mh / sh) ≤ sw * (mw / sw) :=
          mul_le_mul_of_nonneg_left (min_le_left _ _) hsw.le
      _ = mw := by field_simp
  case isFalse h => simpa using hno h

theorem fitFactor_height_le (sw sh mw mh : ℚ) (hsh : 0 < sh)
    (hno : ¬ (mw < sw ∨ mh < sh) → sh ≤ mh) :
    sh * fitFactor sw sh mw mh ≤ mh := by
  unfold fitFactor
  split
  case isTrue h =>
    calc sh * min (mw / sw) (mh / sh) ≤ sh * (mh / sh) :=
          mul_le_mul_of_nonneg_left (min_le_right _ _) hsh.le
      _ = mh := by field_simp
  case isFalse h => simpa using hno h

/-- **C10.** For every watermark and canvas, the rectangle returned by
`getWatermarkPosition` has width ≤ `max(200·s, 120)` and height ≤
`max(120·s, 80)` with `s = min(cw/800, ch/600)`, is nondegenerate, and
keeps the image's natural width-to-height proportion
(`width · ih = height · iw`) — for every positive `watermark.scale`,
however large (no `≤ 1` clamp, unlike the filter-graph backend's
`Math.min(1.0, watermark.scale)`). -/
theorem watermark_size_invariant (w : Watermark) (cw ch iw ih : ℚ)
    (hiw : 0 < iw) (hih : 0 < ih) (hsc : 0 < w.scale) :
    (getWatermarkPosition w cw ch iw ih).width ≤
      max (200 * min (cw / 800) (ch / 600)) 120 ∧
    (getWatermarkPosition w cw ch iw ih).height ≤
      max (120 * min (cw / 800) (ch / 600)) 80 ∧
    0 < (getWatermarkPosition w cw ch iw ih).width ∧
    0 < (getWatermarkPosition w cw ch iw ih).height ∧
    (getWatermarkPosition w cw ch iw ih).width * ih =
      (getWatermarkPosition w cw ch iw ih).height * iw := by
  have hsw : 0 < iw * w.scale := mul_pos hiw hsc
  have hsh : 0 < ih * w.scale := mul_pos hih hsc
  have hmw : (0 : ℚ) < max (200 * min (cw / 800) (ch / 600)) 120 :=
    lt_of_lt_of_le (by norm_num) (le_max_right _ _)
  have hmh : (0 : ℚ) < max (120 * min (cw / 800) (ch / 600)) 80 :=
    lt_of_lt_of_le (by norm_num) (le_max_right _ _)
  have hfit : 0 < fitFactor (iw * w.scale) (ih * w.scale)
      (max (200 * min (cw / 800) (ch / 600)) 120)
      (max (120 * min (cw / 800) (ch / 600)) 80) :=
    fitFactor_pos _ _ _ _ hsw hsh hmw hmh
  simp only [getWatermarkPosition]
  refine ⟨?_, ?_, mul_pos hsw hfit, mul_pos hsh hfit, by ring⟩
  · exact fitFactor_width_le _ _ _ _ hsw (fun h => by push_neg at h; exact h.1)
  · exact fitFactor_height_le _ _ _ _ hsh (fun h => by push_neg at h; exact h.2)

/-- Witness for `watermark_size_invariant`: a 400×200 image with
`scale = 3` on an 800×600 canvas. -/
theorem watermark_size_invariant_witness :
    (getWatermarkPosition ⟨"wm", 0, 10, 3, WMPos.center, none, none⟩
        800 600 400 200).width ≤
      max (200 * min ((800 : ℚ) / 800) (600 / 600)) 120 ∧
    (getWatermarkPosition ⟨"wm", 0, 10, 3, WMPos.center, none, none⟩
        800 600 400 200).height ≤
      max (120 * min ((800 : ℚ) / 800) (600 / 600)) 80 ∧
    0 < (getWatermarkPosition ⟨"wm", 0, 10, 3, WMPos.center, none, none⟩
        800 600 400 200).width ∧
    0 < (getWatermarkPosition ⟨"wm", 0, 10, 3, WMPos.center, none, none⟩
        800 600 400 200).height ∧
    (getWatermarkPosition ⟨"wm", 0, 10, 3, WMPos.center, none, none⟩
        800 600 400 200).width * 200 =
      (getWatermarkPosition ⟨"wm", 0, 10, 3, WMPos.center, none, none⟩
        800 600 400 200).height * 400 :=
  watermark_size_invariant ⟨"wm", 0, 10, 3, WMPos.center, none, none⟩
    800 600 400 200 (by norm_num) (by norm_num) (by norm_num)

/-! ### Cleanup of temporary artifacts (C9)

`exportVideo` writes `disclaimer_i.<ext>` images, and
`exportVideoWithDisclaimers` additionally creates `main_output.mp4`, one
`disclaimer_video_i.mp4` clip per slide and the `concat_list.txt` manifest.
`FFmpegManager.cleanup` deletes only a fixed three-file list. -/

/-- The fixed deletion list of `FFmpegManager.cleanup` (ffmpeg-utils.ts
lines 477-493): `['input.mp4', 'output.mp4', 'temp_main.mp4']`. -/
def cleanupFiles : List String := ["input.mp4", "output.mp4", "temp_main.mp4"]

/-- The temporary files a filter-graph export with `n` disclaimer slides
(png sources) writes beyond `input.mp4` and the returned `output.mp4`:
the written slide images, the intermediate main render, the per-slide
clips, and the concatenation manifest. -/
def disclaimerTempFiles (n : ℕ) : List String :=
  (List.range n).map (fun i => "disclaimer_" ++ toString i ++ ".png") ++
  ["main_output.mp4"] ++
  (List.range n).map (fun i => "disclaimer_video_" ++ toString i ++ ".mp4") ++
  ["concat_list.txt"]

/-- **C9 (code bug evaluation).** With a single disclaimer slide, the
export creates `disclaimer_0.png`, `main_output.mp4`,
`disclaimer_video_0.mp4` and `concat_list.txt`, and `cleanup` deletes none
of them: its fixed list misses every temporary of the disclaimer path, so
the claimed "deleted during cleanup, leaving only the returned artifact"
fails on both the successful and the failed path. -/
theorem cleanup_misses_temporaries :
    "main_output.mp4" ∈ disclaimerTempFiles 1 ∧
    "concat_list.txt" ∈ disclaimerTempFiles 1 ∧
    "disclaimer_video_0.mp4" ∈ disclaimerTempFiles 1 ∧
    "disclaimer_0.png" ∈ disclaimerTempFiles 1 ∧
    ∀ f ∈ disclaimerTempFiles 1, f ∉ cleanupFiles := by
  decide

end ViData
